import Mathlib

/-!
# Shallow embedding of the `ogg-bitstream` page framing engine

This file embeds the core OGG page framing engine of the repository
(`src/writer.rs`, `src/reader.rs`, `src/lib.rs`) into Lean 4 and proves or
refutes the frozen claims about it.

Modelling conventions:
* bytes and machine integers are `Nat`; wrap-around of a `uN` value is written
  explicitly as `% 2^N` (or `% 256`) at the operations where the Rust code
  performs wrapping arithmetic;
* Rust panics (out-of-bounds slicing, overflow in debug profile) are modelled
  by an explicit `panic` outcome constructor;
* fallible operations return outcome types mirroring `WriteError`/`ReadError`;
* the byte sink of the writer is the list of `write_all` chunks performed so
  far; the byte source of the reader is a `List Nat` consumed from the front.
-/

set_option maxRecDepth 100000

namespace Ogg

/-! ## Constants (`src/lib.rs`) -/

def CONTINUATION_VALUE : Nat := 0x1
def BOS_VALUE : Nat := 0x2
def EOS_VALUE : Nat := 0x4
def MAX_PAGE_HEADER_SIZE : Nat := 27 + 255
def MAX_PAGE_DATA_SIZE : Nat := 65025
def MAX_PAGE_SIZE : Nat := MAX_PAGE_HEADER_SIZE + MAX_PAGE_DATA_SIZE
def PAGER_MARKER : List Nat := [0x4F, 0x67, 0x67, 0x53]
def VERSION_INDEX : Nat := 4
def HEADER_TYPE_INDEX : Nat := 5
def SEGMENT_COUNT_INDEX : Nat := 26
def SEGMENT_TABLE_INDEX : Nat := 27
def GRANULE_POSITION_START : Nat := 6
def BITSTREAM_SERIAL_NUMBER_START : Nat := 14
def PAGE_SEQUENCE_NUMBER_START : Nat := 18
def CRC32_START : Nat := 22

/-- `u64::MAX`, the "no granule information" sentinel. -/
def u64MAX : Nat := 2 ^ 64 - 1

/-- `parse_u32_le` / `parse_u64_le` (`src/lib.rs`): little-endian decoding of a
byte list. -/
def parse_le (bytes : List Nat) : Nat :=
  bytes.foldr (fun b acc => b + 256 * acc) 0

/-- `u32::to_le_bytes` / `u64::to_le_bytes`: the `w` little-endian bytes of
`v`. -/
def le_bytes (w v : Nat) : List Nat :=
  (List.range w).map fun i => v / 256 ^ i % 256

/-! ## CRC-32

Modelled from the spec: `src/lib.rs` declares `pub(crate) mod crc32;` but the
file `src/crc32.rs` itself is not present in the sources.  Section 4.1 of the
specification describes it as a CRC-32 over 8-bit input with polynomial
`0x04C11DB7`, MSB-first, no bit reflection of input or output, initial value 0
and no final XOR; byte-at-a-time implementations are explicitly acceptable.
The definition below is the byte-at-a-time form of exactly that CRC; it is
validated against the stored CRC of the page fixture in the repository's own
`test_sync` test (see `crc32_matches_fixture` below). -/

def crc32_poly : Nat := 0x04C11DB7

def crc32_bit_step (c : Nat) : Nat :=
  if c &&& 0x80000000 ≠ 0 then ((c <<< 1) ^^^ crc32_poly) % 2 ^ 32
  else (c <<< 1) % 2 ^ 32

def crc32_byte_step (c b : Nat) : Nat :=
  crc32_bit_step^[8] ((c ^^^ ((b % 256) <<< 24)) % 2 ^ 32)

/-- Remainder accumulation over the input bytes.  The `c ≤ 0xFFFFFFFF` guard
is always true (`crc32_byte_step` reduces modulo `2^32`); it only keeps the
running remainder in evaluated form so that concrete pages can be checked by
kernel reduction. -/
def crc32_aux : Nat → List Nat → Nat
  | c, [] => c
  | c, b :: rest =>
    if c ≤ 0xFFFFFFFF then crc32_aux (crc32_byte_step c b) rest else 0

def crc32 (bytes : List Nat) : Nat :=
  crc32_aux 0 bytes

/-- The 47-byte valid BOS page used by the repository's `test_sync` reader
test (an `OpusHead` page of serial `0xB609C94A`). -/
def fixturePage : List Nat :=
  [0x4F, 0x67, 0x67, 0x53, 0x00, 0x02, 0x00, 0x00, 0x00, 0x00, 0x00, 0x00, 0x00, 0x00,
   0x4A, 0xC9, 0x09, 0xB6, 0x00, 0x00, 0x00, 0x00, 0xF9, 0x20, 0x89, 0xF8, 0x01, 0x13,
   0x4F, 0x70, 0x75, 0x73, 0x48, 0x65, 0x61, 0x64, 0x01, 0x02, 0x38, 0x01, 0x80, 0xBB,
   0x00, 0x00, 0x00, 0x00, 0x00]

/-- The fixture page with its CRC field (bytes 22..26) zeroed. -/
def fixturePageZeroCrc : List Nat :=
  fixturePage.take 22 ++ [0, 0, 0, 0] ++ fixturePage.drop 26

/-- Sanity check for the spec-modelled CRC: it reproduces the stored CRC
(`0xF88920F9`, little-endian bytes `F9 20 89 F8`) of the repository's own test
fixture page. -/
theorem crc32_matches_fixture : crc32 fixturePageZeroCrc = 0xF88920F9 := by rfl

/-! ## Writer (`src/writer.rs`)

The writer's reusable `page_buffer` is modelled as a function `Nat → Nat`
(byte value at each offset).  Every byte inside the emitted prefix
`page_buffer[..data_end]` is freshly written by `write_page` on every call,
except offsets 0..3 (the capture pattern, written once in
`StreamWriter::new`) and offset 4 (the version byte, which stays at its
zero-initialised value); hence `write_page` can rebuild the buffer from
`initPageBuffer` on each call without changing the emitted bytes. -/

/-- Rust slice indexing `xs[start..stop]`: panics (here `none`) unless
`start ≤ stop ≤ xs.length`. -/
def sliceExact (xs : List Nat) (start stop : Nat) : Option (List Nat) :=
  if start ≤ stop ∧ stop ≤ xs.length then some ((xs.drop start).take (stop - start))
  else none

/-- Pointwise store into a byte buffer. -/
def bufWrite (buf : Nat → Nat) (i v : Nat) : Nat → Nat :=
  fun j => if j = i then v else buf j

/-- `copy_from_slice` of `data` at offset `start`, as one bulk store. -/
def writeRange (buf : Nat → Nat) (start : Nat) (data : List Nat) : Nat → Nat :=
  fun j => if start ≤ j ∧ j < start + data.length then data.getD (j - start) 0 else buf j

/-- The page buffer as initialised by `StreamWriter::new`: zeroed except for
the capture pattern at offsets 0..4. -/
def initPageBuffer : Nat → Nat :=
  fun i => if i < 4 then PAGER_MARKER.getD i 0 else 0

/-- `StreamState` (`src/writer.rs`).  `data_buffer` holds the filled prefix
(`data_buffer[..data_head]` in Rust); the embedding maintains
`data_buffer.length = data_head`. -/
structure StreamState where
  bitstream_serial_number : Nat
  data_buffer : List Nat
  data_head : Nat
  packet_sizes : List Nat
  page_sequence_number : Nat
  granule_position : Nat
  header_type : Nat
deriving DecidableEq

/-- `StreamState::default()`. -/
def StreamState.default : StreamState :=
  { bitstream_serial_number := 0, data_buffer := [], data_head := 0,
    packet_sizes := [], page_sequence_number := 0, granule_position := 0,
    header_type := 0 }

/-- `WriteError` (`src/write_error.rs`). -/
inductive WriteError where
  | ioError
  | tryFromIntError
  | unknownBitstreamSerialNumber
  | bitstreamAlreadyInitialized
  | initialPacketTooBig
deriving DecidableEq

/-- Outcome of a writer operation: `ok`, a returned `WriteError`, or a Rust
panic (out-of-bounds slice index). -/
inductive WriterOutcome (α : Type) where
  | ok (a : α)
  | error (e : WriteError)
  | panic
deriving DecidableEq

/-- The free function `push_packet` (`src/writer.rs:226`).  Note that the
source copies from `packet_data[state.data_head..state.data_head + size]`
(not from `packet_data[..size]`): since `packet_data.length = size`, that
slice is out of bounds — a panic — whenever `data_head > 0` and the packet is
non-empty.  The destination slice
`data_buffer[data_head..data_head + size]` panics when it exceeds the fixed
`MAX_PAGE_DATA_SIZE` capacity. -/
def push_packet (state : StreamState) (packet_data : List Nat) : Option StreamState :=
  let size := packet_data.length
  if state.data_head + size > MAX_PAGE_DATA_SIZE then none
  else
    match sliceExact packet_data state.data_head (state.data_head + size) with
    | none => none
    | some src =>
      some { state with
        packet_sizes := state.packet_sizes ++ [size],
        data_buffer := state.data_buffer ++ src,
        data_head := state.data_head + size }

/-- The inner `for _ in 0..full_segments` loop of `write_page`: writes
`full_segments` lacing bytes of value 255 and bumps the `u8` segment counter.
The `u8` increment `segment_count += 1` wraps modulo 256 (release-profile
semantics), written explicitly as `% 256`. -/
def lacingFull : Nat → ((Nat → Nat) × Nat) → ((Nat → Nat) × Nat)
  | 0, acc => acc
  | k + 1, (buf, count) =>
    lacingFull k (bufWrite buf (SEGMENT_TABLE_INDEX + count) 255, (count + 1) % 256)

/-- One iteration of the segment-table loop of `write_page`
(`src/writer.rs:241`): `u8::try_from(packet_size / 255)` fails
(`TryFromIntError`, here `none`) when the quotient exceeds 255; then the full
255-valued lacing bytes, then the remainder lacing byte only if
`packet_size % 255 > 0`. -/
def segmentWritesPacket (acc : (Nat → Nat) × Nat) (packet_size : Nat) :
    Option ((Nat → Nat) × Nat) :=
  if packet_size / 255 > 255 then none
  else
    let acc2 := lacingFull (packet_size / 255) acc
    let remainder := packet_size % 255
    if remainder > 0 then
      some (bufWrite acc2.1 (SEGMENT_TABLE_INDEX + acc2.2) remainder, (acc2.2 + 1) % 256)
    else some acc2

/-- The segment-table loop of `write_page` over all queued packet sizes. -/
def segmentWrites : ((Nat → Nat) × Nat) → List Nat → Option ((Nat → Nat) × Nat)
  | acc, [] => some acc
  | acc, s :: rest =>
    match segmentWritesPacket acc s with
    | none => none
    | some acc2 => segmentWrites acc2 rest

/-- `write_page` (`src/writer.rs:234`).  `ioOk` is whether the single
`write_all` to the sink succeeds; on failure the error propagates before the
stream state is reset.  Returns the emitted page bytes and the reset state. -/
def write_page (ioOk : Bool) (state : StreamState) :
    WriterOutcome (List Nat × StreamState) :=
  match segmentWrites (initPageBuffer, 0) state.packet_sizes with
  | none => .error .tryFromIntError
  | some (buf0, segment_count) =>
    let buf1 := bufWrite buf0 HEADER_TYPE_INDEX state.header_type
    let buf2 := writeRange buf1 GRANULE_POSITION_START
      (le_bytes 8 (if segment_count = 255 then u64MAX else state.granule_position))
    let buf3 := writeRange buf2 BITSTREAM_SERIAL_NUMBER_START
      (le_bytes 4 state.bitstream_serial_number)
    let buf4 := writeRange buf3 PAGE_SEQUENCE_NUMBER_START
      (le_bytes 4 state.page_sequence_number)
    let buf5 := writeRange buf4 CRC32_START [0, 0, 0, 0]
    let buf6 := bufWrite buf5 SEGMENT_COUNT_INDEX segment_count
    let data_start := SEGMENT_TABLE_INDEX + segment_count
    let data_end := data_start + state.data_head
    let buf7 := writeRange buf6 data_start (state.data_buffer.take state.data_head)
    let c := crc32 ((List.range (data_start + state.data_head)).map buf7)
    let buf8 := writeRange buf7 CRC32_START (le_bytes 4 c)
    if ioOk then
      .ok ((List.range data_end).map buf8,
        { state with packet_sizes := [], data_buffer := [], data_head := 0,
                     page_sequence_number := (state.page_sequence_number + 1) % 2 ^ 32 })
    else .error .ioError

/-- `StreamWriter`: the sink is recorded as the ordered list of `write_all`
chunks (one emitted page per chunk); the produced byte stream is their
concatenation. -/
structure StreamWriter where
  output : List (List Nat)
  stream_states : List StreamState
deriving DecidableEq

def StreamWriter.new : StreamWriter := { output := [], stream_states := [] }

/-- `StreamWriter::begin_logical_stream` (`src/writer.rs:65`).  `io k` tells
whether the `k`-th sink write performed during this call succeeds.  Returns
the call outcome together with the post-call writer. -/
def StreamWriter.begin_logical_stream (w : StreamWriter) (serial : Nat)
    (first_packet_data : List Nat) (io : Nat → Bool) :
    WriterOutcome Unit × StreamWriter :=
  if w.stream_states.any (fun s => s.bitstream_serial_number = serial) then
    (.error .bitstreamAlreadyInitialized, w)
  else if first_packet_data.length > MAX_PAGE_DATA_SIZE then
    (.error .initialPacketTooBig, w)
  else
    let state := { StreamState.default with
      bitstream_serial_number := serial, header_type := BOS_VALUE }
    match push_packet state first_packet_data with
    | none => (.panic, w)
    | some state2 =>
      match write_page (io 0) state2 with
      | .error e => (.error e, w)
      | .panic => (.panic, w)
      | .ok (page, state3) =>
        (.ok (), { w with
          output := w.output ++ [page],
          stream_states := w.stream_states ++ [{ state3 with header_type := 0 }] })

/-- Index of the first stream state carrying `serial`, as found by
`iter().enumerate().find(..)`. -/
def findStateIdx (serial : Nat) : List StreamState → Option Nat
  | [] => none
  | s :: rest =>
    if s.bitstream_serial_number = serial then some 0
    else (findStateIdx serial rest).map (· + 1)

def StreamWriter.findState (w : StreamWriter) (serial : Nat) : Option Nat :=
  findStateIdx serial w.stream_states

/-- `StreamWriter::end_logical_stream` (`src/writer.rs:99`): the stream state
is `remove`d from the live list first; the flush of a pending page and the
final EOS page write happen afterwards, so the state stays removed on any
error path. -/
def StreamWriter.end_logical_stream (w : StreamWriter) (serial : Nat)
    (last_packet_data : List Nat) (granule_position : Nat) (io : Nat → Bool) :
    WriterOutcome Unit × StreamWriter :=
  match w.findState serial with
  | none => (.error .unknownBitstreamSerialNumber, w)
  | some idx =>
    let state := w.stream_states.getD idx StreamState.default
    let w2 : StreamWriter := { w with stream_states := w.stream_states.eraseIdx idx }
    let flushed : WriterOutcome (List (List Nat) × StreamState × Nat) :=
      if state.data_head ≠ 0 then
        match write_page (io 0) state with
        | .error e => .error e
        | .panic => .panic
        | .ok (page, state2) => .ok ([page], state2, 1)
      else .ok ([], state, 0)
    match flushed with
    | .error e => (.error e, w2)
    | .panic => (.panic, w2)
    | .ok (pages, state2, ioIdx) =>
      let state3 := { state2 with header_type := EOS_VALUE,
                                  granule_position := granule_position }
      match push_packet state3 last_packet_data with
      | none => (.panic, { w2 with output := w2.output ++ pages })
      | some state4 =>
        match write_page (io ioIdx) state4 with
        | .error e => (.error e, { w2 with output := w2.output ++ pages })
        | .panic => (.panic, { w2 with output := w2.output ++ pages })
        | .ok (page, _) =>
          (.ok (), { w2 with output := w2.output ++ pages ++ [page] })

/-- The splitting loop of `StreamWriter::push_packet` (`src/writer.rs:171`).
`fuel` only bounds the recursion; it is chosen large enough by the caller
that it never runs out (each iteration strictly decreases `size`).  Returns
the pages emitted so far, the current stream state and the call outcome. -/
def push_split_loop : Nat → List (List Nat) → StreamState → List Nat → Nat →
    Nat → Nat → Bool → Nat → (Nat → Bool) →
    List (List Nat) × StreamState × WriterOutcome Unit
  | 0, pages, state, _, _, _, _, _, _, _ => (pages, state, .panic)
  | fuel + 1, pages, state, packet_data, granule, offset, size, is_first_page, ioIdx, io =>
    let state1 := if is_first_page then { state with header_type := 0 }
                  else { state with header_type := CONTINUATION_VALUE }
    if size ≤ MAX_PAGE_DATA_SIZE then
      let state2 := { state1 with granule_position := granule }
      match sliceExact packet_data offset (offset + size) with
      | none => (pages, state2, .panic)
      | some sl =>
        match push_packet state2 sl with
        | none => (pages, state2, .panic)
        | some state3 =>
          match write_page (io ioIdx) state3 with
          | .error e => (pages, state3, .error e)
          | .panic => (pages, state3, .panic)
          | .ok (page, state4) => (pages ++ [page], state4, .ok ())
    else
      let state2 := { state1 with granule_position := u64MAX }
      match sliceExact packet_data offset (offset + MAX_PAGE_DATA_SIZE) with
      | none => (pages, state2, .panic)
      | some sl =>
        match push_packet state2 sl with
        | none => (pages, state2, .panic)
        | some state3 =>
          match write_page (io ioIdx) state3 with
          | .error e => (pages, state3, .error e)
          | .panic => (pages, state3, .panic)
          | .ok (page, state4) =>
            push_split_loop fuel (pages ++ [page]) state4 packet_data granule
              (offset + MAX_PAGE_DATA_SIZE) (size - MAX_PAGE_DATA_SIZE) false
              (ioIdx + 1) io

/-- `StreamWriter::push_packet` (`src/writer.rs:136`). -/
def StreamWriter.push_packet (w : StreamWriter) (serial : Nat)
    (packet_data : List Nat) (granule_position : Nat) (io : Nat → Bool) :
    WriterOutcome Unit × StreamWriter :=
  match w.findState serial with
  | none => (.error .unknownBitstreamSerialNumber, w)
  | some idx =>
    let state := w.stream_states.getD idx StreamState.default
    let size := packet_data.length
    let flushed : WriterOutcome (List (List Nat) × StreamState × Nat) :=
      if state.data_head ≠ 0 ∧ state.data_head + size > MAX_PAGE_DATA_SIZE then
        match write_page (io 0) state with
        | .error e => .error e
        | .panic => .panic
        | .ok (page, state2) => .ok ([page], state2, 1)
      else .ok ([], state, 0)
    match flushed with
    | .error e => (.error e, w)
    | .panic => (.panic, w)
    | .ok (pages, state2, ioIdx) =>
      if state2.data_head + size ≤ MAX_PAGE_DATA_SIZE then
        let state3 := { state2 with granule_position := granule_position }
        match Ogg.push_packet state3 packet_data with
        | none =>
          (.panic, { w with output := w.output ++ pages,
                            stream_states := w.stream_states.set idx state3 })
        | some state4 =>
          if state4.data_head = MAX_PAGE_DATA_SIZE then
            match write_page (io ioIdx) state4 with
            | .error e =>
              (.error e, { w with output := w.output ++ pages,
                                  stream_states := w.stream_states.set idx state4 })
            | .panic =>
              (.panic, { w with output := w.output ++ pages,
                                stream_states := w.stream_states.set idx state4 })
            | .ok (page, state5) =>
              (.ok (), { w with output := w.output ++ pages ++ [page],
                                stream_states := w.stream_states.set idx state5 })
          else
            (.ok (), { w with output := w.output ++ pages,
                              stream_states := w.stream_states.set idx state4 })
      else
        let res := push_split_loop (size + 1) pages state2 packet_data
          granule_position 0 size true ioIdx io
        match res.2.2 with
        | .ok _ =>
          (.ok (), { w with output := w.output ++ res.1,
                            stream_states :=
                              w.stream_states.set idx { res.2.1 with header_type := 0 } })
        | out =>
          (out, { w with output := w.output ++ res.1,
                         stream_states := w.stream_states.set idx res.2.1 })

/-- `StreamWriter::flush` (`src/writer.rs:200`). -/
def StreamWriter.flush (w : StreamWriter) (serial : Nat) (io : Nat → Bool) :
    WriterOutcome Unit × StreamWriter :=
  match w.findState serial with
  | none => (.error .unknownBitstreamSerialNumber, w)
  | some idx =>
    let state := w.stream_states.getD idx StreamState.default
    if state.data_head ≠ 0 then
      match write_page (io 0) state with
      | .error e => (.error e, w)
      | .panic => (.panic, w)
      | .ok (page, state2) =>
        (.ok (), { w with output := w.output ++ [page],
                          stream_states := w.stream_states.set idx state2 })
    else (.ok (), w)

/-- `StreamWriter::page_is_empty` (`src/writer.rs:215`). -/
def StreamWriter.page_is_empty (w : StreamWriter) (serial : Nat) :
    WriterOutcome Bool :=
  match w.findState serial with
  | none => .error .unknownBitstreamSerialNumber
  | some idx => .ok ((w.stream_states.getD idx StreamState.default).data_head = 0)

/-! ## Reader (`src/reader.rs`)

The byte source is a `List Nat` of bytes (values < 256) consumed from the
front; `read_exact n` fails — an I/O `UnexpectedEof` — when fewer than `n`
bytes remain.  The reader's fixed `page_buffer` is modelled as a function
`Nat → Nat`.  The `next_packet` loop carries explicit fuel; a `none` result
means only that the fuel ran out, every `some` result is the behaviour of the
source. -/

/-- `Packet` (`src/reader.rs:28`). -/
structure Packet where
  data : List Nat
  bitstream_serial_number : Nat
  granule_position : Nat
  is_bos : Bool
  is_eos : Bool
deriving DecidableEq

/-- `Packet::default()`. -/
def Packet.default : Packet :=
  { data := [], bitstream_serial_number := 0, granule_position := 0,
    is_bos := false, is_eos := false }

/-- `ReadStatus` (`src/reader.rs:70`). -/
inductive ReadStatus where
  | ok
  | eof
  | missing
deriving DecidableEq

/-- `ReadError` (`src/read_error.rs`). -/
inductive ReadError where
  | ioError
  | tryFromIntError
  | unhandledBitstreamVersion (v : Nat)
  | unableToSync
deriving DecidableEq

/-- `QueuedPacket` (`src/reader.rs:80`): byte range into the page buffer. -/
structure QueuedPacket where
  start : Nat
  stop : Nat
  is_complete : Bool
deriving DecidableEq

/-- `BitStreamReader` (`src/reader.rs:171`). -/
structure BitStreamReader where
  page_buffer : Nat → Nat
  queued_packets : List QueuedPacket
  current_bitstream_serial_number : Nat
  current_page_sequence_number : Nat
  current_granule_position : Nat
  current_is_eos : Bool

/-- `BitStreamReader::default()`. -/
def BitStreamReader.default : BitStreamReader :=
  { page_buffer := fun _ => 0, queued_packets := [],
    current_bitstream_serial_number := 0, current_page_sequence_number := 0,
    current_granule_position := 0, current_is_eos := false }

/-- `Read::read_exact` over a list source: take `n` bytes or fail. -/
def read_exact (input : List Nat) (n : Nat) : Option (List Nat × List Nat) :=
  if n ≤ input.length then some (input.take n, input.drop n) else none

/-- The initial match count that `sync_with_next_page` computes over the four
bytes of a failed fast-path read (`src/reader.rs:310`).  It is only invoked
when those bytes are not the capture pattern, so the running count stays
below 4 and the `PAGER_MARKER[marker_found]` index stays in bounds. -/
def count_marker_matches (bytes : List Nat) : Nat :=
  bytes.foldl (fun mf b => if b = PAGER_MARKER.getD mf 0 then mf + 1 else 0) 0

/-- The byte-at-a-time re-sync loop of `sync_with_next_page`
(`src/reader.rs:320`): up to `MAX_PAGE_SIZE` single-byte reads; the
`marker_found == 4` check happens at the top of each iteration.  On a
mismatch the count resets to 0 and the mismatching byte is NOT re-tested
against the start of the pattern. -/
def sync_scan_loop : Nat → Nat → List Nat → Except ReadError (List Nat)
  | 0, _, _ => .error .unableToSync
  | fuel + 1, marker_found, input =>
    if marker_found = 4 then .ok input
    else
      match input with
      | [] => .error .ioError
      | b :: rest =>
        sync_scan_loop fuel
          (if b = PAGER_MARKER.getD marker_found 0 then marker_found + 1 else 0) rest

/-- `BitStreamReader::sync_with_next_page` (`src/reader.rs:300`); returns the
input remaining just past the capture pattern. -/
def sync_with_next_page (input : List Nat) : Except ReadError (List Nat) :=
  match read_exact input 4 with
  | none => .error .ioError
  | some (buffer, rest) =>
    if buffer = PAGER_MARKER then .ok rest
    else sync_scan_loop MAX_PAGE_SIZE (count_marker_matches buffer) rest

/-- The lacing-value walk of `read_page_data` (`src/reader.rs:359`):
accumulates 255-valued laces into `segment_size` and closes a complete
`QueuedPacket` on any other value.  Returns the queued packets in order, the
leftover `segment_size` and the total `read_size`. -/
def parseLacing (table_end : Nat) :
    List Nat → Nat → Nat → List QueuedPacket → List QueuedPacket × Nat × Nat
  | [], segment_size, read_size, acc => (acc, segment_size, read_size)
  | lace :: rest, segment_size, read_size, acc =>
    let segment_size2 := segment_size + lace
    if lace = 255 then parseLacing table_end rest segment_size2 read_size acc
    else
      parseLacing table_end rest 0 (read_size + segment_size2)
        (acc ++ [{ start := table_end + read_size,
                   stop := table_end + read_size + segment_size2,
                   is_complete := true }])

/-- `BitStreamReader::read_page_data` (`src/reader.rs:346`).  Returns the
page size together with the mutated reader and the remaining input; queued
packets are appended before the payload is read, exactly as in the source. -/
def read_page_data (r : BitStreamReader) (input : List Nat) :
    Except ReadError Nat × BitStreamReader × List Nat :=
  let buf0 := writeRange r.page_buffer 0 PAGER_MARKER
  match read_exact input 23 with
  | none => (.error .ioError, { r with page_buffer := buf0 }, input)
  | some (hdr, rest) =>
    let buf1 := writeRange buf0 VERSION_INDEX hdr
    let table_size := buf1 SEGMENT_COUNT_INDEX
    match read_exact rest table_size with
    | none => (.error .ioError, { r with page_buffer := buf1 }, rest)
    | some (table, rest2) =>
      let buf2 := writeRange buf1 SEGMENT_TABLE_INDEX table
      let table_end := SEGMENT_TABLE_INDEX + table_size
      let parsed := parseLacing table_end table 0 0 []
      let queued :=
        if parsed.2.1 ≠ 0 then
          parsed.1 ++ [{ start := table_end + parsed.2.2,
                         stop := table_end + parsed.2.2 + parsed.2.1,
                         is_complete := false }]
        else parsed.1
      let read_size := parsed.2.2 + parsed.2.1
      let r2 := { r with page_buffer := buf2,
                         queued_packets := r.queued_packets ++ queued }
      let page_end := SEGMENT_TABLE_INDEX + table_size + read_size
      match read_exact rest2 read_size with
      | none => (.error .ioError, r2, rest2)
      | some (payload, rest3) =>
        (.ok page_end,
         { r2 with page_buffer := writeRange buf2 table_end payload }, rest3)

/-- `BitStreamReader::verify_crc32` (`src/reader.rs:335`): reads the stored
CRC, zeroes the CRC field in the buffer (a mutation that persists), computes
the CRC over the page prefix and compares. -/
def verify_crc32 (r : BitStreamReader) (page_size : Nat) : Bool × BitStreamReader :=
  let target_crc := parse_le ((List.range 4).map fun i => r.page_buffer (CRC32_START + i))
  let buf := writeRange r.page_buffer CRC32_START [0, 0, 0, 0]
  let c := crc32 ((List.range page_size).map buf)
  (decide (target_crc = c), { r with page_buffer := buf })

/-- `BitStreamReader::write_frame` (`src/reader.rs:286`): append the byte
range of the page buffer to the packet data and stamp the metadata of the
current page; clears `is_bos`/`is_eos`. -/
def write_frame (r : BitStreamReader) (p : Packet) (start stop : Nat) : Packet :=
  { p with
    data := p.data ++ (List.range (stop - start)).map (fun i => r.page_buffer (start + i)),
    bitstream_serial_number := r.current_bitstream_serial_number,
    granule_position := r.current_granule_position,
    is_bos := false, is_eos := false }

/-- The page-reading loop of `BitStreamReader::next_packet`
(`src/reader.rs:214`).  `handle_eof!` maps an I/O failure during sync or page
read to `Ok(Eof)` and propagates every other error. -/
def next_packet_loop : Nat → BitStreamReader → List Nat → Packet →
    Option (Except ReadError ReadStatus × BitStreamReader × List Nat × Packet)
  | 0, _, _, _ => none
  | fuel + 1, r, input, p =>
    match sync_with_next_page input with
    | .error .ioError => some (.ok .eof, r, input, p)
    | .error e => some (.error e, r, input, p)
    | .ok rest =>
      match read_page_data r rest with
      | (.error .ioError, r2, rest2) => some (.ok .eof, r2, rest2, p)
      | (.error e, r2, rest2) => some (.error e, r2, rest2, p)
      | (.ok page_size, r2, rest2) =>
        let verified := verify_crc32 r2 page_size
        let r3 := verified.2
        if ¬ verified.1 then
          some (.ok .missing, { r3 with queued_packets := [] }, rest2,
                { p with data := [] })
        else
          let version := r3.page_buffer VERSION_INDEX
          let header_type := r3.page_buffer HEADER_TYPE_INDEX
          let granule_position :=
            parse_le ((List.range 8).map fun i => r3.page_buffer (GRANULE_POSITION_START + i))
          let serial :=
            parse_le ((List.range 4).map fun i =>
              r3.page_buffer (BITSTREAM_SERIAL_NUMBER_START + i))
          let page_sequence_number :=
            parse_le ((List.range 4).map fun i =>
              r3.page_buffer (PAGE_SEQUENCE_NUMBER_START + i))
          let is_continuation := header_type &&& CONTINUATION_VALUE = 1
          let is_bos := (header_type &&& BOS_VALUE) >>> 1 = 1
          let is_eos := (header_type &&& EOS_VALUE) >>> 2 = 1
          if version ≠ 0 then
            some (.error (.unhandledBitstreamVersion version), r3, rest2, p)
          else
            let r4 := { r3 with current_bitstream_serial_number := serial,
                                current_granule_position := granule_position,
                                current_is_eos := is_eos }
            let p2 :=
              if p.data ≠ [] ∧
                  (r4.current_bitstream_serial_number ≠ serial ∨
                    r4.current_page_sequence_number + 1 > page_sequence_number) then
                { p with data := [] }
              else p
            match r4.queued_packets with
            | [] => some (.ok .missing, r4, rest2, p2)
            | q :: qs =>
              let r5 := { r4 with queued_packets := qs }
              if is_continuation ∧ p2.data ≠ [] then
                some (.ok .missing, r5, rest2, p2)
              else
                let p3 := write_frame r5 p2 q.start q.stop
                if ¬ q.is_complete then next_packet_loop fuel r5 rest2 p3
                else
                  let p4 := if is_bos then { p3 with is_bos := true } else p3
                  some (.ok .ok, r5, rest2, p4)

/-- `BitStreamReader::next_packet` (`src/reader.rs:194`): drain one queued
packet from the previous page if present, then read further pages through
`next_packet_loop`. -/
def next_packet (fuel : Nat) (r : BitStreamReader) (input : List Nat) (packet : Packet) :
    Option (Except ReadError ReadStatus × BitStreamReader × List Nat × Packet) :=
  let p := { packet with data := [] }
  let is_last_packet := r.queued_packets.length = 1
  match r.queued_packets with
  | q :: qs =>
    let r2 := { r with queued_packets := qs }
    let p2 := write_frame r2 p q.start q.stop
    let p3 := if is_last_packet ∧ r2.current_is_eos then { p2 with is_eos := true } else p2
    if q.is_complete then some (.ok .ok, r2, input, p3)
    else next_packet_loop fuel r2 input p3
  | [] => next_packet_loop fuel r input p

/-- `SearchResult` (`src/reader.rs:576`). -/
structure SearchResult where
  packet_start : Nat
  packet_end : Nat
  granule_position : Nat
deriving DecidableEq

/-- The linear refinement loop inside `BitStreamReader::seek`
(`src/reader.rs:456`): `search` abstracts `search_next_packet`, mapping a
cursor position to a result and the cursor position after the call; the
second component of the return value counts `search` invocations. -/
def seek_linear_loop (search : Nat → Except ReadError SearchResult × Nat) :
    Nat → Nat → Nat → (Except ReadError (Nat × Bool) × Nat)
  | 0, _, _ => (.error .ioError, 0)
  | fuel + 1, left, target_granule_position =>
    match search left with
    | (.error e, _) => (.error e, 1)
    | (.ok res, _) =>
      if res.granule_position > target_granule_position then (.ok (left, true), 1)
      else
        let next := seek_linear_loop search fuel res.packet_end target_granule_position
        (next.1, next.2 + 1)

/-- The bisection loop of `BitStreamReader::seek` (`src/reader.rs:430`).
Returns the converged `target` byte offset (or propagates an error) and the
number of `search_next_packet` invocations.  `u64` saturating arithmetic and
the wrapping `right - left` comparison are written out explicitly. -/
def seek_bisect_loop (search : Nat → Except ReadError SearchResult × Nat) :
    Nat → Nat → Nat → Nat → Nat → (Except ReadError Nat × Nat)
  | 0, _, _, target, _ => (.ok target, 0)
  | fuel + 1, left, right, target, target_granule_position =>
    if left < right then
      let mid := (left + right) / 2
      match search mid with
      | (.error .ioError, _) => (.ok target, 1)
      | (.error e, _) => (.error e, 1)
      | (.ok res, _) =>
        let target2 := res.packet_start
        if res.granule_position < target_granule_position then
          let left2 := min (mid + 1) (2 ^ 64 - 1)
          if (2 ^ 64 + right - left2) % 2 ^ 64 < 1024 then
            match seek_linear_loop search fuel left2 target_granule_position with
            | (.error e, n) => (.error e, n + 1)
            | (.ok (t, _), n) => (.ok t, n + 1)
          else
            let next := seek_bisect_loop search fuel left2 right target2 target_granule_position
            (next.1, next.2 + 1)
        else if res.granule_position > target_granule_position then
          let right2 := mid - 1
          if (2 ^ 64 + right2 - left) % 2 ^ 64 < 1024 then
            match seek_linear_loop search fuel left target_granule_position with
            | (.error e, n) => (.error e, n + 1)
            | (.ok (t, _), n) => (.ok t, n + 1)
          else
            let next := seek_bisect_loop search fuel left right2 target2 target_granule_position
            (next.1, next.2 + 1)
        else (.ok target2, 1)
    else (.ok target, 0)

/-- `BitStreamReader::seek` (`src/reader.rs:399`).  The byte source is
`file` with cursor `pos`; `search` abstracts `search_next_packet`.  Returns
the outcome, the reader (queue cleared), the final cursor position, and the
number of `search_next_packet` probes performed. -/
def BitStreamReader.seek (r : BitStreamReader) (file : List Nat) (pos : Nat)
    (search : Nat → Except ReadError SearchResult × Nat)
    (target_granule_position : Nat) (fuel : Nat) :
    Except ReadError Unit × BitStreamReader × Nat × Nat :=
  let r2 := { r with queued_packets := [] }
  let _ := pos
  if target_granule_position = 2 ^ 64 - 1 then
    (.ok (), r2, file.length, 0)
  else if target_granule_position = 0 then
    (.ok (), r2, 0, 0)
  else
    let max_right := file.length
    match seek_bisect_loop search fuel 0 max_right 0 target_granule_position with
    | (.error e, n) => (.error e, r2, max_right, n)
    | (.ok target, n) => (.ok (), r2, target, n)

/-! ## Concrete fixtures for the claims -/

/-- Builds a well-formed page per §3 of the format: header, zeroed CRC field,
segment table, payload; then the computed CRC-32 is patched in.  (Test
fixture builder, mirroring the byte layout the writer emits.) -/
def mkPage (header_type granule serial seq : Nat) (laces payload : List Nat) : List Nat :=
  let body := PAGER_MARKER ++ [0, header_type] ++ le_bytes 8 granule ++ le_bytes 4 serial ++
    le_bytes 4 seq ++ [0, 0, 0, 0] ++ [laces.length] ++ laces ++ payload
  body.take 22 ++ le_bytes 4 (crc32 body) ++ body.drop 26

/-- First page of a packet split across two pages: serial 9, sequence 1, one
lacing value 255 with no terminator (packet continues), granule sentinel. -/
def c3PageA : List Nat := mkPage 0 u64MAX 9 1 [255] (List.replicate 255 7)

/-- Continuation page finishing that packet: serial 9, sequence 2,
continuation flag set, one terminating lacing value 10. -/
def c3PageB : List Nat := mkPage CONTINUATION_VALUE 44 9 2 [10] (List.replicate 10 8)

/-- A stream state holding one queued 255-byte packet (e.g. right before a
`flush`). -/
def c5State : StreamState :=
  { bitstream_serial_number := 3, data_buffer := List.replicate 255 7,
    data_head := 255, packet_sizes := [255], page_sequence_number := 4,
    granule_position := 9, header_type := 0 }

/-- A stream state holding 256 queued one-byte packets, requiring 256 lacing
bytes. -/
def c6State : StreamState :=
  { bitstream_serial_number := 3, data_buffer := List.replicate 256 5,
    data_head := 256, packet_sizes := List.replicate 256 1,
    page_sequence_number := 0, granule_position := 9, header_type := 0 }

/-- A stream state with a non-empty page buffer (one 4-byte packet already
queued), as after `begin_logical_stream` plus one `push_packet`. -/
def c2State : StreamState :=
  { bitstream_serial_number := 11, data_buffer := [9, 9, 9, 9], data_head := 4,
    packet_sizes := [4], page_sequence_number := 1, granule_position := 0,
    header_type := 0 }

/-- The page bytes emitted by `write_page`, if any. -/
def writerOutcomePage : WriterOutcome (List Nat × StreamState) → Option (List Nat)
  | .ok (p, _) => some p
  | _ => none

/-- Number of lacing bytes the OGG lacing rule (§3 of the spec) requires for
a packet of size `s` that ends on the page: `s / 255` bytes of value 255
followed by one terminator byte of value `s % 255` (also when that value is
0). -/
def lacing_bytes_required (s : Nat) : Nat :=
  s / 255 + 1

/-- An all-true I/O oracle: every sink write succeeds. -/
def ioAllOk : Nat → Bool := fun _ => true

/-! ## Claims C1, C2, C3, C5, C6, C7 -/

/-- C1.  Round trip: for every finite sequence of begin/push/end calls with
packets of at most `MAX_PAGE_DATA_SIZE` bytes, reading the produced byte
stream back is claimed to return exactly the written packets.  This fails
already at producing the byte stream: in the concrete covered sequence
`begin_logical_stream(42,[0,1,2,4]); push_packet(42,[5],7);
push_packet(42,[6],8)` the third call panics (out-of-bounds slice
`packet_data[data_head..data_head+size]` in the free `push_packet` with
`data_head = 1`), so no byte stream with the three packets exists and the
reader cannot return them. -/
theorem claim_C1_roundtrip_fails_on_second_buffered_push :
    (((StreamWriter.new.begin_logical_stream 42 [0, 1, 2, 4] ioAllOk).2.push_packet
        42 [5] 7 ioAllOk).2.push_packet 42 [6] 8 ioAllOk).1
      = WriterOutcome.panic ∧
    ((StreamWriter.new.begin_logical_stream 42 [0, 1, 2, 4] ioAllOk).2.push_packet
        42 [5] 7 ioAllOk).1 = WriterOutcome.ok () := by
  exact ⟨rfl, rfl⟩

/-- C2.  `push_packet` on a live stream with a fitting packet: with an empty
buffer the packet's bytes are appended and the size recorded, but with a
non-empty buffer (`data_head = 4`) the copy source
`packet_data[data_head..data_head+size]` is out of bounds and the call
panics instead of appending — the claim's `data_head > 0` case is false. -/
theorem claim_C2_push_packet_panics_on_nonempty_buffer :
    push_packet c2State [0xAA] = none ∧
    push_packet { c2State with data_buffer := [], data_head := 0, packet_sizes := [] }
        [0xAA]
      = some { c2State with data_buffer := [0xAA], data_head := 1,
                            packet_sizes := [1] } := by
  exact ⟨rfl, rfl⟩

/-- C3.  Cross-page stitching: on a CRC-valid split packet (first page with
an unterminated 255 lace, next page with the continuation flag set, same
serial, consecutive sequence numbers) the claim says the reader appends the
continuation data.  The code instead returns `Missing` exactly when
`is_continuation` is set and partial data remains, keeping only the partial
255 bytes and never delivering the reassembled 265-byte packet. -/
theorem claim_C3_continuation_page_yields_missing_not_append :
    ((next_packet 4 BitStreamReader.default (c3PageA ++ c3PageB)
        Packet.default).map (·.1)) = some (Except.ok ReadStatus.missing) ∧
    ((next_packet 4 BitStreamReader.default (c3PageA ++ c3PageB)
        Packet.default).map fun x => x.2.2.2.data) = some (List.replicate 255 7) := by
  exact ⟨rfl, rfl⟩

/-- C5.  Lacing terminator: for a queued packet of size 255 (a positive
exact multiple of 255) that ends on the page being emitted, the claim
requires lacing bytes `[255, 0]` (segment count 2).  `write_page` never
writes the zero terminator: it emits segment count 1 with table `[255]`, the
byte at offset 28 already being payload. -/
theorem claim_C5_no_zero_terminator_for_exact_multiple :
    (writerOutcomePage (write_page true c5State)).map
        (fun p => (p.getD 26 0, p.take 29 |>.drop 26, p.length))
      = some (1, [1, 255, 7], 283) := by
  exact rfl

/-- C6.  Segment count bound: `write_page` is claimed to abort rather than
emit when the queued packet sizes require more than 255 lacing bytes.  With
256 one-byte packets (256 required lacing bytes) it does not abort: the `u8`
segment counter wraps around to 0 and a malformed 283-byte page with segment
count byte 0 is emitted. -/
theorem claim_C6_segment_counter_overflows_and_page_still_emitted :
    ((c6State.packet_sizes.map lacing_bytes_required).sum = 256 ∧ 256 > 255) ∧
    (writerOutcomePage (write_page true c6State)).map
        (fun p => (p.getD 26 0, p.length)) = some (0, 283) := by
  exact ⟨⟨by decide, by decide⟩, rfl⟩

/-- C7.  Sync recovery: reading the valid fixture stream returns the
`OpusHead` packet, but prepending the single garbage byte `0x4F` (a one-byte
prefix of the capture pattern, within the `MAX_PAGE_SIZE − 4` bound) makes
the byte-at-a-time scanner consume the real first marker byte without
restarting the match, so the page is never found and the reader returns
`Eof` with no packet — a different decoded packet sequence. -/
theorem claim_C7_garbage_prefix_4F_loses_the_stream :
    ((next_packet 4 BitStreamReader.default fixturePage Packet.default).map
        fun x => (x.1, x.2.2.2.data)) = some (Except.ok ReadStatus.ok, fixturePage.drop 28) ∧
    ((next_packet 4 BitStreamReader.default (0x4F :: fixturePage) Packet.default).map
        fun x => (x.1, x.2.2.2.data)) = some (Except.ok ReadStatus.eof, []) := by
  exact ⟨rfl, rfl⟩

/-! ## Claim C8: CRC failure handling -/

/-- A forged 27-byte page (no segments, no payload): its stored CRC field is
`1` while the CRC computed over the page with the CRC field zeroed is
`2661393681`. -/
def c8Input : List Nat :=
  PAGER_MARKER ++ [0, 0] ++ List.replicate 8 0 ++ List.replicate 4 0 ++
    List.replicate 4 0 ++ [1, 0, 0, 0] ++ [0]

/-- C8.  Whenever `next_packet` (with no queued packet pending) acquires sync
and decodes a page whose stored CRC differs from the CRC-32 computed over the
page with the CRC field zeroed, it clears the queued-packet FIFO, clears the
output packet's data and returns `ReadStatus::Missing` (not an error); the
post state has an empty queue, so a subsequent `next_packet` call simply runs
the normal page-reading loop again. -/
theorem claim_C8_crc_mismatch_yields_missing
    (r r2 : BitStreamReader) (input rest rest2 : List Nat) (p : Packet)
    (fuel page_size : Nat)
    (hq : r.queued_packets = [])
    (hsync : sync_with_next_page input = .ok rest)
    (hread : read_page_data r rest = (.ok page_size, r2, rest2))
    (hcrc : parse_le ((List.range 4).map fun i => r2.page_buffer (CRC32_START + i))
        ≠ crc32 ((List.range page_size).map
            (writeRange r2.page_buffer CRC32_START [0, 0, 0, 0]))) :
    next_packet (fuel + 1) r input p
      = some (.ok .missing,
          { r2 with page_buffer := writeRange r2.page_buffer CRC32_START [0, 0, 0, 0],
                    queued_packets := [] },
          rest2, { p with data := [] }) ∧
    (∀ fuel2 p2,
      next_packet fuel2
          { r2 with page_buffer := writeRange r2.page_buffer CRC32_START [0, 0, 0, 0],
                    queued_packets := [] }
          rest2 p2
        = next_packet_loop fuel2
            { r2 with page_buffer := writeRange r2.page_buffer CRC32_START [0, 0, 0, 0],
                      queued_packets := [] }
            rest2 { p2 with data := [] }) := by
  constructor
  · unfold next_packet
    rw [hq]
    unfold next_packet_loop
    simp only [hsync, hread]
    unfold verify_crc32
    simp only [decide_eq_false hcrc]
    rfl
  · intro fuel2 p2
    rfl

/-- C8 witness: the hypotheses are satisfiable — on the concrete forged page
`c8Input` the reader returns `Missing` with cleared queue and packet data. -/
theorem claim_C8_crc_mismatch_yields_missing_witness :
    ((next_packet 1 BitStreamReader.default c8Input Packet.default).map
      fun x => (x.1, x.2.1.queued_packets, x.2.2.2.data))
      = some (Except.ok ReadStatus.missing, [], []) := by
  rw [(claim_C8_crc_mismatch_yields_missing BitStreamReader.default _ c8Input _ _
      Packet.default 0 _ rfl rfl rfl (by decide)).1]
  rfl

/-! ## Claim C9: seek edge cases -/

/-- C9.  For every reader, file, cursor position, probe behaviour and fuel:
`seek` to target granule 0 repositions the cursor to byte offset 0 and
returns Ok with zero `search_next_packet` probes, and `seek` to target
`u64::MAX` repositions the cursor to the end of the file and returns Ok with
zero probes (the queued-packet FIFO is cleared in both cases). -/
theorem claim_C9_seek_zero_and_max (r : BitStreamReader) (file : List Nat)
    (pos : Nat) (search : Nat → Except ReadError SearchResult × Nat) (fuel : Nat) :
    BitStreamReader.seek r file pos search 0 fuel
      = (.ok (), { r with queued_packets := [] }, 0, 0) ∧
    BitStreamReader.seek r file pos search (2 ^ 64 - 1) fuel
      = (.ok (), { r with queued_packets := [] }, file.length, 0) := by
  exact ⟨rfl, rfl⟩

/-! ## Claim C10: end_logical_stream removes the state before writing -/

theorem findStateIdx_eq_none_of_forall (serial : Nat) (l : List StreamState)
    (h : ∀ s ∈ l, s.bitstream_serial_number ≠ serial) :
    findStateIdx serial l = none := by
  induction l with
  | nil => rfl
  | cons a t ih =>
    simp only [findStateIdx]
    rw [if_neg (h a (List.mem_cons_self a t)),
      ih fun s hs => h s (List.mem_cons_of_mem a hs)]
    rfl

theorem findStateIdx_eraseIdx (serial : Nat) (l : List StreamState) (idx : Nat)
    (hpw : l.Pairwise fun a b => a.bitstream_serial_number ≠ b.bitstream_serial_number)
    (hfind : findStateIdx serial l = some idx) :
    findStateIdx serial (l.eraseIdx idx) = none := by
  induction l generalizing idx with
  | nil => exact absurd hfind (by simp [findStateIdx])
  | cons a t ih =>
    rw [List.pairwise_cons] at hpw
    by_cases ha : a.bitstream_serial_number = serial
    · have hidx : idx = 0 := by
        simp only [findStateIdx, if_pos ha] at hfind
        exact (Option.some_inj.mp hfind).symm
      subst hidx
      apply findStateIdx_eq_none_of_forall
      intro s hs
      have := hpw.1 s hs
      omega
    · simp only [findStateIdx, if_neg ha] at hfind
      cases hj : findStateIdx serial t with
      | none => rw [hj] at hfind; exact absurd hfind (by simp)
      | some j =>
        rw [hj] at hfind
        have hidx : idx = j + 1 := by
          simp only [Option.map_some'] at hfind
          exact (Option.some_inj.mp hfind).symm
        subst hidx
        show findStateIdx serial (a :: t.eraseIdx j) = none
        simp only [findStateIdx, if_neg ha, ih j hpw.2 hj]
        rfl

/-- The stream state found by `end_logical_stream` is removed from the live
list before any page write is attempted, on every outcome path. -/
theorem end_logical_stream_removes_state (w : StreamWriter) (serial : Nat)
    (data : List Nat) (g : Nat) (io : Nat → Bool) (idx : Nat)
    (hfind : w.findState serial = some idx) :
    ((w.end_logical_stream serial data g io).2).stream_states
      = w.stream_states.eraseIdx idx := by
  unfold StreamWriter.end_logical_stream
  rw [hfind]
  dsimp only
  split
  · rfl
  · rfl
  · split
    · rfl
    · split <;> rfl

theorem push_packet_unknown (v : StreamWriter) (serial : Nat) (d : List Nat)
    (g : Nat) (io2 : Nat → Bool) (h : v.findState serial = none) :
    v.push_packet serial d g io2 = (.error .unknownBitstreamSerialNumber, v) := by
  unfold StreamWriter.push_packet
  rw [h]

theorem flush_unknown (v : StreamWriter) (serial : Nat) (io2 : Nat → Bool)
    (h : v.findState serial = none) :
    v.flush serial io2 = (.error .unknownBitstreamSerialNumber, v) := by
  unfold StreamWriter.flush
  rw [h]

theorem page_is_empty_unknown (v : StreamWriter) (serial : Nat)
    (h : v.findState serial = none) :
    v.page_is_empty serial = .error .unknownBitstreamSerialNumber := by
  unfold StreamWriter.page_is_empty
  rw [h]

theorem end_logical_stream_unknown (v : StreamWriter) (serial : Nat) (d : List Nat)
    (g : Nat) (io2 : Nat → Bool) (h : v.findState serial = none) :
    v.end_logical_stream serial d g io2 = (.error .unknownBitstreamSerialNumber, v) := by
  unfold StreamWriter.end_logical_stream
  rw [h]

/-- C10.  `end_logical_stream` on a live serial (stream serials pairwise
distinct, as `begin_logical_stream` guarantees) leaves a writer in which that
serial is no longer live — for every I/O outcome, including failing page
writes — so every immediately following `push_packet`, `flush`,
`end_logical_stream` or `page_is_empty` call with that serial fails with
`UnknownBitstreamSerialNumber`. -/
theorem claim_C10_end_logical_stream_removes_state_first
    (w : StreamWriter) (serial : Nat) (last_packet : List Nat) (granule : Nat)
    (io : Nat → Bool) (idx : Nat)
    (hfind : w.findState serial = some idx)
    (hpw : w.stream_states.Pairwise
      fun a b => a.bitstream_serial_number ≠ b.bitstream_serial_number) :
    ((w.end_logical_stream serial last_packet granule io).2).findState serial = none ∧
    (∀ d g2 io2,
      ((w.end_logical_stream serial last_packet granule io).2).push_packet serial d g2 io2
        = (.error .unknownBitstreamSerialNumber,
           (w.end_logical_stream serial last_packet granule io).2)) ∧
    (∀ io2,
      ((w.end_logical_stream serial last_packet granule io).2).flush serial io2
        = (.error .unknownBitstreamSerialNumber,
           (w.end_logical_stream serial last_packet granule io).2)) ∧
    ((w.end_logical_stream serial last_packet granule io).2).page_is_empty serial
      = .error .unknownBitstreamSerialNumber ∧
    (∀ d g2 io2,
      ((w.end_logical_stream serial last_packet granule io).2).end_logical_stream
          serial d g2 io2
        = (.error .unknownBitstreamSerialNumber,
           (w.end_logical_stream serial last_packet granule io).2)) := by
  have hnone : ((w.end_logical_stream serial last_packet granule io).2).findState serial
      = none := by
    show findStateIdx serial
      ((w.end_logical_stream serial last_packet granule io).2).stream_states = none
    rw [end_logical_stream_removes_state w serial last_packet granule io idx hfind]
    exact findStateIdx_eraseIdx serial w.stream_states idx hpw hfind
  refine ⟨hnone, ?_, ?_, ?_, ?_⟩
  · intro d g2 io2
    exact push_packet_unknown _ serial d g2 io2 hnone
  · intro io2
    exact flush_unknown _ serial io2 hnone
  · exact page_is_empty_unknown _ serial hnone
  · intro d g2 io2
    exact end_logical_stream_unknown _ serial d g2 io2 hnone

/-- A writer with the single live serial 7. -/
def c10Writer : StreamWriter :=
  { output := [],
    stream_states := [{ StreamState.default with bitstream_serial_number := 7 }] }

/-- C10 witness: concrete instance with a failing I/O oracle — after
`end_logical_stream(7, [1], 2)` whose page write fails, `page_is_empty(7)`
reports the unknown serial. -/
theorem claim_C10_end_logical_stream_removes_state_first_witness :
    ((c10Writer.end_logical_stream 7 [1] 2 (fun _ => false)).2).page_is_empty 7
      = .error .unknownBitstreamSerialNumber :=
  (claim_C10_end_logical_stream_removes_state_first c10Writer 7 [1] 2
    (fun _ => false) 0 rfl (List.pairwise_singleton _ _)).2.2.2.1

/-! ## Claim C4: splitting oversize packets

Helper lemmas about `write_page` on a single queued packet, then an
induction over the splitting loop. -/

/-- Number of lacing values `write_page` generates for one queued packet of
size `s`: `s / 255` full segments plus a remainder value only when
`s % 255 > 0` (`src/writer.rs:241-252`). -/
def segCount (s : Nat) : Nat :=
  s / 255 + if s % 255 > 0 then 1 else 0

theorem le_bytes_length (w v : Nat) : (le_bytes w v).length = w := by
  simp [le_bytes]

theorem range_map_getD (n : Nat) (f : Nat → Nat) (i : Nat) :
    ((List.range n).map f).getD i 0 = if i < n then f i else 0 := by
  by_cases h : i < n
  · simp [List.getD_eq_getElem?_getD, List.getElem?_map, List.getElem?_range, h]
  · rw [if_neg h, List.getD_eq_getElem?_getD,
      List.getElem?_eq_none (by simp; omega)]
    rfl

theorem writeRange_out_lo (buf : Nat → Nat) (start : Nat) (data : List Nat)
    (j : Nat) (h : j < start) : writeRange buf start data j = buf j := by
  simp only [writeRange]
  rw [if_neg]
  omega

theorem writeRange_in (buf : Nat → Nat) (start : Nat) (data : List Nat)
    (j : Nat) (h1 : start ≤ j) (h2 : j < start + data.length) :
    writeRange buf start data j = data.getD (j - start) 0 := by
  simp only [writeRange]
  rw [if_pos ⟨h1, h2⟩]

theorem bufWrite_ne (buf : Nat → Nat) (i v j : Nat) (h : j ≠ i) :
    bufWrite buf i v j = buf j := by
  simp [bufWrite, h]

theorem bufWrite_eq (buf : Nat → Nat) (i v : Nat) : bufWrite buf i v i = v := by
  simp [bufWrite]

theorem lacingFull_count (k : Nat) :
    ∀ (buf : Nat → Nat) (count : Nat), count + k ≤ 255 →
      (lacingFull k (buf, count)).2 = count + k := by
  induction k with
  | zero => intro buf count _; rfl
  | succ k ih =>
    intro buf count h
    show (lacingFull k (bufWrite buf (SEGMENT_TABLE_INDEX + count) 255,
      (count + 1) % 256)).2 = count + (k + 1)
    rw [Nat.mod_eq_of_lt (by omega)]
    rw [ih _ (count + 1) (by omega)]
    omega

theorem segmentWrites_single (buf : Nat → Nat) (s : Nat) (hs : s ≤ 65025) :
    ∃ buf2, segmentWrites (buf, 0) [s] = some (buf2, segCount s) := by
  have hdiv : s / 255 ≤ 255 := le_trans (Nat.div_le_div_right hs) (by norm_num)
  have hcount : (lacingFull (s / 255) (buf, 0)).2 = s / 255 := by
    rw [lacingFull_count (s / 255) buf 0 (by omega)]
    omega
  unfold segmentWrites segmentWritesPacket
  rw [if_neg (by omega : ¬ s / 255 > 255)]
  dsimp only
  by_cases hr : s % 255 > 0
  · have hlt : s / 255 < 255 := by
      rcases Nat.lt_or_ge (s / 255) 255 with h | h
      · exact h
      · exfalso
        have h2 : 255 * 255 ≤ s := (Nat.le_div_iff_mul_le (by norm_num)).mp h
        have hseq : s = 65025 := by omega
        rw [hseq] at hr
        norm_num at hr
    rw [if_pos hr, hcount]
    refine ⟨bufWrite (lacingFull (s / 255) (buf, 0)).1
      (SEGMENT_TABLE_INDEX + s / 255) (s % 255), ?_⟩
    unfold segmentWrites
    rw [Nat.mod_eq_of_lt (show s / 255 + 1 < 256 by omega)]
    have : segCount s = s / 255 + 1 := by simp [segCount, hr]
    rw [this]
  · rw [if_neg hr]
    refine ⟨(lacingFull (s / 255) (buf, 0)).1, ?_⟩
    unfold segmentWrites
    have : segCount s = s / 255 := by simp [segCount, hr]
    rw [this]
    exact congrArg some (Prod.ext rfl hcount)

/-- The stream-state reset `write_page` performs after a successful sink
write: clear the queued sizes and the buffer, advance the page sequence
number. -/
def resetState (st : StreamState) : StreamState :=
  { st with packet_sizes := [], data_buffer := [], data_head := 0,
            page_sequence_number := (st.page_sequence_number + 1) % 2 ^ 32 }

/-- `write_page` on a state with a single queued packet of size `s`: the page
is emitted, the state is reset, the header-type byte is preserved and the
granule field carries the no-granule sentinel exactly when the lacing needs
255 segment values. -/
theorem write_page_single (st : StreamState) (s : Nat)
    (hsizes : st.packet_sizes = [s]) (hs : s ≤ 65025) :
    ∃ page, write_page true st
        = .ok (page, resetState st) ∧
      page.getD 5 0 = st.header_type ∧
      ∀ i, i < 8 → page.getD (6 + i) 0
        = (le_bytes 8 (if segCount s = 255 then u64MAX
                       else st.granule_position)).getD i 0 := by
  obtain ⟨buf2, hseg⟩ := segmentWrites_single initPageBuffer s hs
  unfold write_page
  rw [hsizes, hseg]
  dsimp only
  rw [if_pos rfl]
  refine ⟨_, rfl, ?_, ?_⟩
  · rw [range_map_getD, if_pos (by simp only [SEGMENT_TABLE_INDEX]; omega)]
    rw [writeRange_out_lo _ _ _ 5 (by simp only [CRC32_START]; omega)]
    rw [writeRange_out_lo _ _ _ 5 (by simp only [SEGMENT_TABLE_INDEX]; omega)]
    rw [bufWrite_ne _ _ _ 5 (by simp only [SEGMENT_COUNT_INDEX]; omega)]
    rw [writeRange_out_lo _ _ _ 5 (by simp only [CRC32_START]; omega)]
    rw [writeRange_out_lo _ _ _ 5 (by simp only [PAGE_SEQUENCE_NUMBER_START]; omega)]
    rw [writeRange_out_lo _ _ _ 5 (by simp only [BITSTREAM_SERIAL_NUMBER_START]; omega)]
    rw [writeRange_out_lo _ _ _ 5 (by simp only [GRANULE_POSITION_START]; omega)]
    rw [show HEADER_TYPE_INDEX = 5 from rfl, bufWrite_eq]
  · intro i hi
    rw [range_map_getD, if_pos (by simp only [SEGMENT_TABLE_INDEX]; omega)]
    rw [writeRange_out_lo _ _ _ (6 + i) (by simp only [CRC32_START]; omega)]
    rw [writeRange_out_lo _ _ _ (6 + i) (by simp only [SEGMENT_TABLE_INDEX]; omega)]
    rw [bufWrite_ne _ _ _ (6 + i) (by simp only [SEGMENT_COUNT_INDEX]; omega)]
    rw [writeRange_out_lo _ _ _ (6 + i) (by simp only [CRC32_START]; omega)]
    rw [writeRange_out_lo _ _ _ (6 + i) (by simp only [PAGE_SEQUENCE_NUMBER_START]; omega)]
    rw [writeRange_out_lo _ _ _ (6 + i) (by simp only [BITSTREAM_SERIAL_NUMBER_START]; omega)]
    rw [writeRange_in _ _ _ (6 + i) (by simp only [GRANULE_POSITION_START]; omega)
      (by simp only [GRANULE_POSITION_START, le_bytes_length]; omega)]
    rw [show GRANULE_POSITION_START = 6 from rfl, Nat.add_sub_cancel_left]

theorem sliceExact_some (xs : List Nat) (start stop : Nat)
    (h1 : start ≤ stop) (h2 : stop ≤ xs.length) :
    sliceExact xs start stop = some ((xs.drop start).take (stop - start)) := by
  simp [sliceExact, h1, h2]

theorem push_packet_empty (st : StreamState) (d : List Nat)
    (h0 : st.data_head = 0) (hlen : d.length ≤ MAX_PAGE_DATA_SIZE) :
    push_packet st d
      = some { bitstream_serial_number := st.bitstream_serial_number,
               data_buffer := st.data_buffer ++ d,
               data_head := d.length,
               packet_sizes := st.packet_sizes ++ [d.length],
               page_sequence_number := st.page_sequence_number,
               granule_position := st.granule_position,
               header_type := st.header_type } := by
  have hM : MAX_PAGE_DATA_SIZE = 65025 := rfl
  unfold push_packet
  rw [h0]
  rw [if_neg (by rw [hM] at hlen ⊢; omega)]
  rw [sliceExact_some d 0 (0 + d.length) (by omega) (by omega)]
  simp

theorem segCount_65025 : segCount 65025 = 255 := by decide

theorem le_bytes_u64MAX_getD (i : Nat) (h : i < 8) :
    (le_bytes 8 u64MAX).getD i 0 = 255 := by
  interval_cases i <;> rfl

/-- Behaviour of the splitting loop on an all-successful sink, with a reset
stream state: it emits `ceil(size / 65025)` pages; the header-type byte is 0
on the first page when `is_first_page` was set and `CONTINUATION_VALUE` on
every later page; the granule field of every non-final page is the
`0xFF...FF` sentinel, and the final page carries the caller's granule
position unless its slice needs 255 lacing values, in which case `write_page`
substitutes the sentinel. -/
theorem push_split_loop_spec (fuel : Nat) :
    ∀ (size offset : Nat) (pages : List (List Nat)) (st : StreamState)
      (packet : List Nat) (granule ioIdx : Nat) (isf : Bool),
      1 ≤ size → size ≤ fuel → offset + size = packet.length →
      st.data_head = 0 → st.data_buffer = [] → st.packet_sizes = [] →
      ∃ newPages st2,
        push_split_loop fuel pages st packet granule offset size isf ioIdx ioAllOk
          = (pages ++ newPages, st2, .ok ()) ∧
        newPages.length = (size - 1) / 65025 + 1 ∧
        ∀ k, k < newPages.length →
          ((newPages.getD k []).getD 5 0
            = if k = 0 ∧ isf = true then 0 else CONTINUATION_VALUE) ∧
          ∀ i, i < 8 → (newPages.getD k []).getD (6 + i) 0
            = if k + 1 = newPages.length
              then (le_bytes 8 (if segCount ((size - 1) % 65025 + 1) = 255
                    then u64MAX else granule)).getD i 0
              else 255 := by
  have hM : MAX_PAGE_DATA_SIZE = 65025 := rfl
  induction fuel with
  | zero =>
    intro size offset pages st packet granule ioIdx isf h1 h2
    omega
  | succ fuel ih =>
    intro size offset pages st packet granule ioIdx isf h1 h2 hoff hdh hdb hps
    have hstate1 : (if isf = true then { st with header_type := 0 }
        else { st with header_type := CONTINUATION_VALUE })
        = { st with header_type := if isf = true then 0 else CONTINUATION_VALUE } := by
      cases isf <;> rfl
    unfold push_split_loop
    dsimp only
    rw [hstate1]
    by_cases hle : size ≤ MAX_PAGE_DATA_SIZE
    · rw [if_pos hle]
      rw [sliceExact_some packet offset (offset + size) (by omega) (by omega)]
      dsimp only
      have hsl : ((packet.drop offset).take (offset + size - offset)).length = size := by
        simp only [List.length_take, List.length_drop]
        omega
      rw [push_packet_empty
        { st with granule_position := granule,
                  header_type := if isf = true then 0 else CONTINUATION_VALUE }
        ((packet.drop offset).take (offset + size - offset)) hdh (by rw [hsl]; exact hle)]
      dsimp only
      obtain ⟨page, hwp, hb5, hgr⟩ := write_page_single
        { st with
            data_buffer := st.data_buffer ++ (packet.drop offset).take (offset + size - offset),
            data_head := ((packet.drop offset).take (offset + size - offset)).length,
            packet_sizes := st.packet_sizes ++
              [((packet.drop offset).take (offset + size - offset)).length],
            granule_position := granule,
            header_type := if isf = true then 0 else CONTINUATION_VALUE }
        size (by simp only [hps, hsl, List.nil_append])
        (by rw [hM] at hle; exact hle)
      rw [show ioAllOk ioIdx = true from rfl, hwp]
      refine ⟨[page], _, rfl, ?_, ?_⟩
      · have : (size - 1) / 65025 = 0 := Nat.div_eq_of_lt (by rw [hM] at hle; omega)
        simp [this]
      · intro k hk
        have hk0 : k = 0 := by simpa using hk
        subst hk0
        constructor
        · rw [List.getD_cons_zero, hb5]
          cases isf <;> simp
        · intro i hi
          rw [List.getD_cons_zero, hgr i hi]
          have hcond : 0 + 1 = [page].length := rfl
          rw [if_pos hcond]
          have hsz : (size - 1) % 65025 + 1 = size := by
            rw [Nat.mod_eq_of_lt (by rw [hM] at hle; omega)]
            omega
          rw [hsz]
    · rw [if_neg hle]
      rw [hM] at hle
      rw [sliceExact_some packet offset (offset + MAX_PAGE_DATA_SIZE)
        (by rw [hM]; omega) (by rw [hM]; omega)]
      dsimp only
      have hsl : ((packet.drop offset).take
          (offset + MAX_PAGE_DATA_SIZE - offset)).length = 65025 := by
        simp only [List.length_take, List.length_drop, hM]
        omega
      rw [push_packet_empty
        { st with granule_position := u64MAX,
                  header_type := if isf = true then 0 else CONTINUATION_VALUE }
        ((packet.drop offset).take (offset + MAX_PAGE_DATA_SIZE - offset)) hdh
        (by rw [hsl, hM])]
      dsimp only
      obtain ⟨page, hwp, hb5, hgr⟩ := write_page_single
        { st with
            data_buffer := st.data_buffer ++
              (packet.drop offset).take (offset + MAX_PAGE_DATA_SIZE - offset),
            data_head := ((packet.drop offset).take
              (offset + MAX_PAGE_DATA_SIZE - offset)).length,
            packet_sizes := st.packet_sizes ++
              [((packet.drop offset).take (offset + MAX_PAGE_DATA_SIZE - offset)).length],
            granule_position := u64MAX,
            header_type := if isf = true then 0 else CONTINUATION_VALUE }
        65025 (by simp only [hps, hsl, List.nil_append])
        (by omega)
      rw [show ioAllOk ioIdx = true from rfl, hwp]
      dsimp only
      obtain ⟨newRec, st5, heq, hlenRec, hprops⟩ :=
        ih (size - MAX_PAGE_DATA_SIZE) (offset + MAX_PAGE_DATA_SIZE)
          (pages ++ [page])
          (resetState
            { st with
                data_buffer := st.data_buffer ++
                  (packet.drop offset).take (offset + MAX_PAGE_DATA_SIZE - offset),
                data_head := ((packet.drop offset).take
                  (offset + MAX_PAGE_DATA_SIZE - offset)).length,
                packet_sizes := st.packet_sizes ++
                  [((packet.drop offset).take (offset + MAX_PAGE_DATA_SIZE - offset)).length],
                granule_position := u64MAX,
                header_type := if isf = true then 0 else CONTINUATION_VALUE })
          packet granule (ioIdx + 1) false
          (by rw [hM]; omega) (by rw [hM]; omega) (by rw [hM]; omega)
          rfl rfl rfl
      rw [heq]
      have hrec1 : 1 ≤ newRec.length := by rw [hlenRec]; omega
      refine ⟨page :: newRec, st5, ?_, ?_, ?_⟩
      · rw [List.append_assoc]
        rfl
      · have hshift : size - 1 = (size - MAX_PAGE_DATA_SIZE - 1) + 65025 := by
          rw [hM]; omega
        simp only [List.length_cons, hlenRec, hshift,
          Nat.add_div_right _ (show 0 < 65025 by norm_num)]
      · intro k hk
        match k with
        | 0 =>
          constructor
          · rw [List.getD_cons_zero, hb5]
            cases isf <;> simp
          · intro i hi
            rw [List.getD_cons_zero, hgr i hi, if_pos segCount_65025,
              le_bytes_u64MAX_getD i hi]
            have hcond : ¬(0 + 1 = (page :: newRec).length) := by
              simp only [List.length_cons]
              omega
            rw [if_neg hcond]
        | k + 1 =>
          have hk2 : k < newRec.length := by
            simp only [List.length_cons] at hk
            omega
          obtain ⟨hp5, hpg⟩ := hprops k hk2
          constructor
          · rw [List.getD_cons_succ, hp5]
            simp
          · intro i hi
            rw [List.getD_cons_succ, hpg i hi]
            have hmod : (size - MAX_PAGE_DATA_SIZE - 1) % 65025 = (size - 1) % 65025 := by
              have hshift : size - 1 = (size - MAX_PAGE_DATA_SIZE - 1) + 65025 := by
                rw [hM]; omega
              rw [hshift, Nat.add_mod_right]
            rw [hmod]
            by_cases hc : k + 1 = newRec.length
            · have hcond : k + 1 + 1 = (page :: newRec).length := by
                simp only [List.length_cons]
                omega
              rw [if_pos hc, if_pos hcond]
            · have hcond : ¬(k + 1 + 1 = (page :: newRec).length) := by
                simp only [List.length_cons]
                omega
              rw [if_neg hc, if_neg hcond]

/-- `StreamWriter::push_packet` on a live stream with an empty buffer and an
oversize packet: runs the splitting loop and stores the final state with
`header_type` cleared. -/
theorem push_packet_split_run (w : StreamWriter) (serial idx : Nat)
    (packet : List Nat) (granule : Nat)
    (hfind : w.findState serial = some idx)
    (hdh : (w.stream_states.getD idx StreamState.default).data_head = 0)
    (hdb : (w.stream_states.getD idx StreamState.default).data_buffer = [])
    (hps : (w.stream_states.getD idx StreamState.default).packet_sizes = [])
    (hL : packet.length > MAX_PAGE_DATA_SIZE) :
    ∃ (pages : List (List Nat)) (st2 : StreamState),
      w.push_packet serial packet granule ioAllOk
        = (.ok (), { w with output := w.output ++ pages,
                            stream_states := w.stream_states.set idx
                              { st2 with header_type := 0 } }) ∧
      pages.length = (packet.length - 1) / 65025 + 1 ∧
      ∀ k, k < pages.length →
        ((pages.getD k []).getD 5 0 = if k = 0 then 0 else CONTINUATION_VALUE) ∧
        ∀ i, i < 8 → (pages.getD k []).getD (6 + i) 0
          = if k + 1 = pages.length
            then (le_bytes 8 (if segCount ((packet.length - 1) % 65025 + 1) = 255
                  then u64MAX else granule)).getD i 0
            else 255 := by
  have hM : MAX_PAGE_DATA_SIZE = 65025 := rfl
  unfold StreamWriter.push_packet
  rw [hfind]
  dsimp only
  rw [if_neg (by rw [hdh]; simp)]
  dsimp only
  rw [if_neg (by rw [hdh, hM]; rw [hM] at hL; omega)]
  obtain ⟨newPages, st2, heq, hlen, hprops⟩ := push_split_loop_spec
    (packet.length + 1) packet.length 0 []
    (w.stream_states.getD idx StreamState.default) packet granule 0 true
    (by rw [hM] at hL; omega) (by omega) (by omega) hdh hdb hps
  rw [heq]
  dsimp only
  refine ⟨newPages, st2, by rw [List.nil_append], ?_, ?_⟩
  · exact hlen
  · intro k hk
    obtain ⟨hp5, hpg⟩ := hprops k hk
    refine ⟨?_, hpg⟩
    rw [hp5]
    by_cases hk0 : k = 0 <;> simp [hk0]

/-- C4 (amended).  For every live stream with an empty buffer and every
packet of length `L > 65025` passed to `push_packet`, exactly
`ceil(L / 65025)` pages are emitted; every page after the first carries the
continuation flag, every page before the last carries granule position
`0xFFFF…FF`, and the final emitted page carries the real granule position
passed by the caller **unless** the final slice requires 255 lacing values
(final slice length in 64771..65025), in which case `write_page` substitutes
the `0xFFFF…FF` sentinel there as well (it keys the sentinel off
`segment_count == 255` at emit time, not off the splitting decision). -/
theorem claim_C4_splitting_amended (w : StreamWriter) (serial idx : Nat)
    (packet : List Nat) (granule : Nat)
    (hfind : w.findState serial = some idx)
    (hdh : (w.stream_states.getD idx StreamState.default).data_head = 0)
    (hdb : (w.stream_states.getD idx StreamState.default).data_buffer = [])
    (hps : (w.stream_states.getD idx StreamState.default).packet_sizes = [])
    (hL : packet.length > MAX_PAGE_DATA_SIZE) :
    ∃ (pages : List (List Nat)) (st2 : StreamState),
      w.push_packet serial packet granule ioAllOk
        = (.ok (), { w with output := w.output ++ pages,
                            stream_states := w.stream_states.set idx
                              { st2 with header_type := 0 } }) ∧
      pages.length = (packet.length - 1) / 65025 + 1 ∧
      ∀ k, k < pages.length →
        ((pages.getD k []).getD 5 0 = if k = 0 then 0 else CONTINUATION_VALUE) ∧
        ∀ i, i < 8 → (pages.getD k []).getD (6 + i) 0
          = if k + 1 = pages.length
            then (le_bytes 8 (if segCount ((packet.length - 1) % 65025 + 1) = 255
                  then u64MAX else granule)).getD i 0
            else 255 :=
  push_packet_split_run w serial idx packet granule hfind hdh hdb hps hL

/-- A writer with the single live serial 8 and a fresh (empty) page buffer. -/
def c4Writer : StreamWriter :=
  { output := [],
    stream_states := [{ StreamState.default with bitstream_serial_number := 8 }] }

/-- C4 witness: on the concrete writer `c4Writer` with a 65026-byte packet
the amended claim's hypotheses hold and it applies. -/
theorem claim_C4_splitting_amended_witness :
    ∃ (pages : List (List Nat)) (st2 : StreamState),
      c4Writer.push_packet 8 (List.replicate 65026 3) 5 ioAllOk
        = (.ok (), { c4Writer with output := c4Writer.output ++ pages,
                                   stream_states := c4Writer.stream_states.set 0
                                     { st2 with header_type := 0 } }) ∧
      pages.length = ((List.replicate 65026 3).length - 1) / 65025 + 1 ∧
      ∀ k, k < pages.length →
        ((pages.getD k []).getD 5 0 = if k = 0 then 0 else CONTINUATION_VALUE) ∧
        ∀ i, i < 8 → (pages.getD k []).getD (6 + i) 0
          = if k + 1 = pages.length
            then (le_bytes 8 (if segCount
                    (((List.replicate 65026 3).length - 1) % 65025 + 1) = 255
                  then u64MAX else 5)).getD i 0
            else 255 :=
  claim_C4_splitting_amended c4Writer 8 0 (List.replicate 65026 3) 5
    rfl rfl rfl rfl (by rw [List.length_replicate]; decide)

/-- C4 counterexample.  The original claim asserts that the final emitted
page carries the real granule position: for the 130050-byte packet (exactly
two maximal slices) with granule position 5 pushed on `c4Writer`, exactly 2
pages are emitted but the final page's first granule byte (offset 6) is 255
— the `0xFFFF…FF` sentinel — whereas byte 0 of `le_bytes 8 5` is 5. -/
theorem claim_C4_splitting_counterexample :
    (c4Writer.push_packet 8 (List.replicate 130050 3) 5 ioAllOk).2.output.length = 2 ∧
    ((c4Writer.push_packet 8 (List.replicate 130050 3) 5
        ioAllOk).2.output.getD 1 []).getD 6 0 = 255 ∧
    (le_bytes 8 5).getD 0 0 = 5 ∧ (255 : Nat) ≠ 5 := by
  obtain ⟨pages, st2, heq, hlen, hprops⟩ := push_packet_split_run c4Writer 8 0
    (List.replicate 130050 3) 5 rfl rfl rfl rfl
    (by rw [List.length_replicate]; decide)
  rw [List.length_replicate] at hlen
  have hlen2 : pages.length = 2 := by rw [hlen]
  have hout : (c4Writer.push_packet 8 (List.replicate 130050 3) 5 ioAllOk).2.output
      = pages := by
    rw [heq]
    simp [c4Writer]
  refine ⟨?_, ?_, rfl, by decide⟩
  · rw [hout, hlen2]
  · rw [hout]
    have hpg := (hprops 1 (by omega)).2 0 (by omega)
    rw [List.length_replicate] at hpg
    rw [if_pos (by omega), if_pos (by decide)] at hpg
    rw [show (6 : Nat) = 6 + 0 from rfl, hpg]
    exact le_bytes_u64MAX_getD 0 (by omega)

end Ogg
